import Mathlib

/-!
Verification of the FlowIO FCS reader/writer core against its specification.

The definitions below are shallow embeddings of the Python source:
  * `flowio/create_fcs.py` — the FCS 3.1 writer (`create_fcs`, `_build_text`),
  * `flowio/flowdata.py`  — the FCS reader (`FlowData`),
  * `flowio/utils.py`     — `read_multiple_data_sets`.
Strings are modelled as `List Char`; machine integers as `Nat`/`Int`;
floating-point event arithmetic as `ℝ`; fallible code as `Except`/`Option`.
-/

namespace FlowIO

/-- Decimal rendering of a natural number, mirroring Python `str(n)`.
Fuel-based so that it is structural and kernel-computable. -/
def natStrAux : Nat → Nat → List Char
  | 0, _ => []
  | fuel + 1, n =>
    if n < 10 then [Nat.digitChar n]
    else natStrAux fuel (n / 10) ++ [Nat.digitChar (n % 10)]

/-- `str(n)` for a natural number. -/
def natStr (n : Nat) : List Char := natStrAux (n + 1) n

/-- Python `int.bit_length()` for naturals: number of bits needed,
`0` for `0`.  Fuel-based for kernel computability. -/
def bitLenAux : Nat → Nat → Nat
  | 0, _ => 0
  | fuel + 1, n => if n = 0 then 0 else bitLenAux fuel (n / 2) + 1

/-- Python `int.bit_length()`. -/
def bitLen (n : Nat) : Nat := bitLenAux (n + 1) n

/-- `_next_power_of_2` from `flowdata.py`:
`if x == 0: return 1 else: return 2 ** (x - 1).bit_length()`. -/
def nextPowerOf2 (x : Nat) : Nat :=
  if x = 0 then 1 else 2 ^ bitLen (x - 1)

/-!
Integer DATA parsing, uniform bit width (`FlowData.__parse_int_data`,
`flowdata.py` lines 475-509).  The decoded event values are modelled as the
list of unsigned integers held by the Python `array.array` after the
(optional) byteswap; the source's byte-wise `a & b` over two equally-typed,
equally-ordered arrays equals the value-wise bitwise AND, which is how the
mask application is rendered here.
-/

/-- The per-channel max-range table built in `FlowData.__parse_data`
(lines 398-405): `max_range_by_channel[i] = _next_power_of_2(int(text['pir']))`. -/
def maxRangeLut (pnrValues : List Nat) : List Nat :=
  pnrValues.map nextPowerOf2

/-- Mask application of the uniform-width integer path of
`FlowData.__parse_int_data`: if any channel has `2 ** PnB > max_range`,
build the repeating bit mask `[mr - 1 for mr in max_range_lut.values()] *
amount_data_points` and AND it elementwise into the data; otherwise the
data is returned unchanged. -/
def maskUniformInts (bitWidth : Nat) (maxRanges : List Nat) (values : List Nat) :
    List Nat :=
  if maxRanges.any (fun mr => 2 ^ bitWidth > mr) then
    let amountDataPoints := values.length / maxRanges.length
    let bitMask := (List.replicate amountDataPoints (maxRanges.map (fun mr => mr - 1))).flatten
    List.zipWith (fun a b => a &&& b) values bitMask
  else values

theorem length_join_replicate {α : Type} (n : Nat) (l : List α) :
    ((List.replicate n l).flatten).length = n * l.length := by
  induction n with
  | zero => simp
  | succ m ih =>
    rw [List.replicate_succ, List.flatten_cons, List.length_append, ih]
    ring

theorem getD_join_replicate {α : Type} (n : Nat) (l : List α) (d : α) (i : Nat)
    (h : i < n * l.length) :
    ((List.replicate n l).flatten).getD i d = l.getD (i % l.length) d := by
  induction n generalizing i with
  | zero => simp at h
  | succ m ih =>
    rw [List.replicate_succ, List.flatten_cons]
    by_cases hi : i < l.length
    · rw [List.getD_append _ _ _ _ hi, Nat.mod_eq_of_lt hi]
    · push_neg at hi
      have hlen : 0 < l.length := by
        rcases Nat.eq_zero_or_pos l.length with h0 | h0
        · rw [h0] at h; simp at h
        · exact h0
      rw [List.getD_append_right _ _ _ _ hi]
      have hlt : i - l.length < m * l.length := by
        rw [Nat.add_mul, Nat.one_mul] at h
        omega
      rw [ih _ hlt, Nat.mod_eq_sub_mod hi]

theorem getD_zipWith_land (a b : List Nat) (i : Nat)
    (h1 : i < a.length) (h2 : i < b.length) :
    (List.zipWith (fun x y => x &&& y) a b).getD i 0
      = (a.getD i 0) &&& (b.getD i 0) := by
  induction a generalizing b i with
  | nil => simp at h1
  | cons x xs ih =>
    cases b with
    | nil => simp at h2
    | cons y ys =>
      cases i with
      | zero => simp
      | succ j =>
        simp only [List.zipWith_cons_cons, List.getD_cons_succ]
        exact ih ys j (by simpa using h1) (by simpa using h2)

theorem getD_map_lt {α β : Type} (f : α → β) (l : List α) (j : Nat) (d : α) (d' : β)
    (h : j < l.length) :
    (l.map f).getD j d' = f (l.getD j d) := by
  rw [List.getD_eq_getElem _ _ (by simpa using h), List.getD_eq_getElem _ _ h,
    List.getElem_map]

/-- C2: when parsing integer data with a uniform bit width and at least one
channel with `2 ^ PnB` above its rounded-up max range, every decoded value is
masked by `next_power_of_two(PnR[c]) - 1` for its column `c`. -/
theorem C2_uniform_int_masking
    (bitWidth n i : Nat) (pnrs values : List Nat)
    (hne : pnrs ≠ [])
    (hlen : values.length = n * pnrs.length)
    (hmask : (maxRangeLut pnrs).any (fun mr => 2 ^ bitWidth > mr) = true)
    (hi : i < values.length) :
    (maskUniformInts bitWidth (maxRangeLut pnrs) values).getD i 0
      = (values.getD i 0) &&& (nextPowerOf2 (pnrs.getD (i % pnrs.length) 0) - 1) := by
  have hP : 0 < pnrs.length := List.length_pos.mpr hne
  have hmrlen : (maxRangeLut pnrs).length = pnrs.length := by
    simp [maxRangeLut]
  have hamount : values.length / (maxRangeLut pnrs).length = n := by
    rw [hmrlen, hlen, Nat.mul_div_cancel _ hP]
  rw [maskUniformInts, if_pos hmask]
  have hmasklen :
      ((List.replicate (values.length / (maxRangeLut pnrs).length)
        ((maxRangeLut pnrs).map (fun mr => mr - 1))).flatten).length
        = values.length := by
    rw [length_join_replicate, List.length_map, hamount, hmrlen, hlen]
  rw [getD_zipWith_land _ _ _ hi (by rw [hmasklen]; exact hi)]
  have hiP : i % pnrs.length < pnrs.length := Nat.mod_lt _ hP
  have hflat :
      ((List.replicate (values.length / (maxRangeLut pnrs).length)
        ((maxRangeLut pnrs).map (fun mr => mr - 1))).flatten).getD i 0
        = nextPowerOf2 (pnrs.getD (i % pnrs.length) 0) - 1 := by
    rw [getD_join_replicate _ _ _ _
      (by rw [List.length_map, hamount, hmrlen]; rw [hlen] at hi; exact hi)]
    rw [List.length_map, hmrlen]
    rw [getD_map_lt _ _ _ 0 _ (by rw [hmrlen]; exact hiP)]
    rw [maxRangeLut, getD_map_lt _ _ _ 0 _ hiP]
  rw [hflat]

/-- C2 witness: a raw 32-bit value `0x087E1D79 = 142482809` in a channel with
`PnB = 32`, `PnR = 11209599` is read as `8265081`, i.e. masked by `2^24 - 1`. -/
theorem C2_uniform_int_masking_witness :
    (maskUniformInts 32 (maxRangeLut [11209599]) [142482809, 3220139858]).getD 0 0
      = 8265081 :=
  (C2_uniform_int_masking 32 2 0 [11209599] [142482809, 3220139858]
    (by decide) (by decide) (by decide) (by decide)).trans (by decide)

/-!
DATA offset resolution (`FlowData.__init__`, `flowdata.py` lines 167-235).
-/

/-- Errors raised while resolving the DATA segment offsets. -/
inductive OffsetError
  | discrepancy
  | sizeTooLarge
  deriving DecidableEq

/-- The offset-resolution logic of `FlowData.__init__`: pick HEADER offsets
for FCS 2.0 or when `use_header_offsets` is set, otherwise TEXT's
`begindata`/`enddata` cross-checked against the HEADER with the large-file
sentinel (`header == 0` and TEXT `enddata > 99_999_999`) and the
`ignore_offset_discrepancy` escape hatch; finally the resolved `data_stop`
must not exceed the file size. -/
def resolveDataOffsets (fcsVersion : String)
    (useHeaderOffsets ignoreOffsetDiscrepancy : Bool)
    (headerDataStart headerDataStop textBeginData textEndData fileSize : Nat) :
    Except OffsetError (Nat × Nat) :=
  if fcsVersion = "2.0" then
    if headerDataStop > fileSize then .error .sizeTooLarge
    else .ok (headerDataStart, headerDataStop)
  else if useHeaderOffsets = true then
    if headerDataStop > fileSize then .error .sizeTooLarge
    else .ok (headerDataStart, headerDataStop)
  else
    if textBeginData ≠ headerDataStart ∧
        ¬(headerDataStart = 0 ∧ textEndData > 99999999) ∧
        ignoreOffsetDiscrepancy = false then .error .discrepancy
    else if textEndData ≠ headerDataStop ∧
        ¬(headerDataStop = 0 ∧ textEndData > 99999999) ∧
        ignoreOffsetDiscrepancy = false then .error .discrepancy
    else if textEndData > fileSize then .error .sizeTooLarge
    else .ok (textBeginData, textEndData)

/-- C3: for a 3.x read without `use_header_offsets`, the resolved offsets are
TEXT's `begindata`/`enddata`; a mismatch with the HEADER raises the
discrepancy error unless `ignore_offset_discrepancy` is set or the large-file
sentinel applies, in which cases the TEXT values are accepted. -/
theorem C3_offset_discrepancy
    (version : String) (ignore : Bool)
    (hStart hStop tBegin tEnd fileSize : Nat)
    (hver : version ≠ "2.0")
    (hsize : tEnd ≤ fileSize) :
    (resolveDataOffsets version false ignore hStart hStop tBegin tEnd fileSize
        = .ok (tBegin, tEnd)
      ↔ (tBegin = hStart ∨ ignore = true ∨ (hStart = 0 ∧ tEnd > 99999999)) ∧
        (tEnd = hStop ∨ ignore = true ∨ (hStop = 0 ∧ tEnd > 99999999))) ∧
    (resolveDataOffsets version false ignore hStart hStop tBegin tEnd fileSize
        = .ok (tBegin, tEnd) ∨
     resolveDataOffsets version false ignore hStart hStop tBegin tEnd fileSize
        = .error .discrepancy) := by
  rw [resolveDataOffsets, if_neg hver]
  simp only [Bool.false_eq_true, if_false]
  split_ifs with h1 h2 h3
  · simp only [reduceCtorEq, false_iff]
    refine ⟨fun hc => ?_, Or.inr trivial⟩
    rcases h1 with ⟨hb, hs, hig⟩
    rcases hc.1 with h | h | h
    · exact hb h
    · rw [hig] at h; exact Bool.false_ne_true h
    · exact hs h
  · simp only [reduceCtorEq, false_iff]
    refine ⟨fun hc => ?_, Or.inr trivial⟩
    rcases h2 with ⟨hb, hs, hig⟩
    rcases hc.2 with h | h | h
    · exact hb h
    · rw [hig] at h; exact Bool.false_ne_true h
    · exact hs h
  · omega
  · simp only [true_iff, Except.ok.injEq, true_and]
    constructor
    · constructor
      · by_cases hb : tBegin = hStart
        · exact Or.inl hb
        · cases hig : ignore with
          | true => exact Or.inr (Or.inl rfl)
          | false =>
            refine Or.inr (Or.inr ?_)
            by_contra hs
            exact h1 ⟨hb, hs, hig⟩
      · by_cases hb : tEnd = hStop
        · exact Or.inl hb
        · cases hig : ignore with
          | true => exact Or.inr (Or.inl rfl)
          | false =>
            refine Or.inr (Or.inr ?_)
            by_contra hs
            exact h2 ⟨hb, hs, hig⟩
    · exact Or.inl trivial

/-- C3 witness: a large-file FCS 3.1 read (HEADER data offsets `0`, TEXT
`enddata` above `99_999_999`) is accepted with the TEXT offsets. -/
theorem C3_offset_discrepancy_witness :
    resolveDataOffsets "3.1" false false 0 0 100 100000000 200000000
      = .ok (100, 100000000) :=
  ((C3_offset_discrepancy "3.1" false 0 0 100 100000000 200000000
    (by decide) (by decide)).1).mpr (by decide)

/-!
Event-count sanity check (`FlowData.__calc_data_item_count`,
`flowdata.py` lines 426-462).
-/

/-- Errors raised by `__calc_data_item_count` (both are `FCSParsingError`
in the source, distinguished here by their message). -/
inductive CalcError
  | offByOne
  | badOffsets
  deriving DecidableEq

/-- `FlowData.__calc_data_item_count`: divide the data-section byte size by
the per-value byte size; remainder `1` is tolerated (decrementing `stop` and
warning) only under `ignore_offset_error`; any other non-zero remainder is
fatal.  Returns `(num_items, stop, warned)`. -/
def calcDataItemCount (start stop dataTypeSize : Nat) (ignoreOffset : Bool) :
    Except CalcError (Nat × Nat × Bool) :=
  if (stop - start + 1) % dataTypeSize > 0 then
    if (stop - start + 1) % dataTypeSize = 1 ∧ ignoreOffset = true then
      .ok ((stop - start + 1 - 1) / dataTypeSize, stop - 1, true)
    else if (stop - start + 1) % dataTypeSize = 1 then .error .offByOne
    else .error .badOffsets
  else .ok ((stop - start + 1) / dataTypeSize, stop, false)

/-- C4: remainder 1 with `ignore_offset_error` set decrements `data_stop`,
warns, and yields an exactly-divisible item count; remainder 1 without the
flag raises; any other non-zero remainder raises regardless of the flag. -/
theorem C4_data_size_remainder (start stop ts : Nat) (ignore : Bool)
    (hts : 0 < ts) :
    ((stop - start + 1) % ts = 1 ∧ ignore = true →
        calcDataItemCount start stop ts ignore
          = .ok ((stop - start + 1 - 1) / ts, stop - 1, true)
        ∧ ts * ((stop - start + 1 - 1) / ts) = stop - start + 1 - 1) ∧
    ((stop - start + 1) % ts = 1 ∧ ignore = false →
        calcDataItemCount start stop ts ignore = .error .offByOne) ∧
    ((stop - start + 1) % ts ≠ 0 ∧ (stop - start + 1) % ts ≠ 1 →
        calcDataItemCount start stop ts ignore = .error .badOffsets) := by
  refine ⟨fun ⟨h1, h2⟩ => ⟨?_, ?_⟩, fun ⟨h1, h2⟩ => ?_, fun ⟨h1, h2⟩ => ?_⟩
  · rw [calcDataItemCount, if_pos (by omega), if_pos ⟨h1, h2⟩]
  · have hdm := Nat.div_add_mod (stop - start + 1) ts
    rw [h1] at hdm
    have hsub : stop - start + 1 - 1 = ts * ((stop - start + 1) / ts) := by omega
    rw [hsub, Nat.mul_div_cancel_left _ hts]
  · rw [calcDataItemCount, if_pos (by omega),
      if_neg (by rintro ⟨-, hc⟩; rw [h2] at hc; exact Bool.false_ne_true hc),
      if_pos h1]
  · rw [calcDataItemCount, if_pos (by omega),
      if_neg (by rintro ⟨hc, -⟩; exact h2 hc), if_neg h2]

/-- C4 witness: a 10-byte section of 3-byte values (remainder 1) parses with
`ignore_offset_error`, yielding 3 items and a decremented stop. -/
theorem C4_data_size_remainder_witness :
    calcDataItemCount 0 9 3 true = .ok (3, 8, true) :=
  ((C4_data_size_remainder 0 9 3 true (by decide)).1 (by decide)).1

/-!
Preprocessing (`FlowData.as_array`, `flowdata.py` lines 671-723).  The
float64 event arithmetic is modelled over `ℝ`.  Each event row is
independent of the others, so the column-wise loops of the source are
rendered row-wise.
-/

/-- The per-channel scaling attributes extracted by
`FlowData.__extract_channel_metadata`: `PnE = (decades, log0)`, `PnR`, `PnG`. -/
structure ChannelScaling where
  decades : ℝ
  log0 : ℝ
  pnr : ℝ
  png : ℝ

/-- The log-scale correction applied by `as_array` (line 717-718):
`x ← 10 ** (decades * x / PnR) * log0` when `decades > 0`. -/
noncomputable def logStep (ch : ChannelScaling) (x : ℝ) : ℝ :=
  if ch.decades > 0 then (10 : ℝ) ^ (ch.decades * x / ch.pnr) * ch.log0 else x

/-- The gain division applied by `as_array` (lines 720-721):
`x ← x / PnG` when `PnG != 1.0 and PnG != 0`. -/
noncomputable def gainStep (ch : ChannelScaling) (x : ℝ) : ℝ :=
  if ch.png ≠ 1 ∧ ch.png ≠ 0 then x / ch.png else x

/-- The body of the channel loop in `as_array`: the log correction followed
by the gain division for the same channel. -/
noncomputable def preprocessValue (ch : ChannelScaling) (x : ℝ) : ℝ :=
  gainStep ch (logStep ch x)

/-- The time-step scaling of `as_array` (lines 696-704): when both a
`timestep` keyword and a time channel exist, the time column is multiplied
by the timestep. -/
noncomputable def timeScaleRow (timeIndex : Option Nat) (timestep : Option ℝ)
    (row : List ℝ) : List ℝ :=
  match timestep, timeIndex with
  | some ts, some ti => row.mapIdx (fun i x => if i = ti then x * ts else x)
  | _, _ => row

/-- One event row of `as_array(preprocess=True)` as the source computes it:
time scaling first, then per channel the log correction followed by the
gain division. -/
noncomputable def asArrayRow (channels : List ChannelScaling)
    (timeIndex : Option Nat) (timestep : Option ℝ) (row : List ℝ) : List ℝ :=
  List.zipWith preprocessValue channels (timeScaleRow timeIndex timestep row)

/-- One event row transformed the way the specification words it: the time
scaling, then a whole pass of log corrections, then a whole pass of gain
divisions. -/
noncomputable def asArrayRowSpec (channels : List ChannelScaling)
    (timeIndex : Option Nat) (timestep : Option ℝ) (row : List ℝ) : List ℝ :=
  List.zipWith gainStep channels
    (List.zipWith logStep channels (timeScaleRow timeIndex timestep row))

theorem zipWith_gain_log (channels : List ChannelScaling) (row : List ℝ) :
    List.zipWith gainStep channels (List.zipWith logStep channels row)
      = List.zipWith preprocessValue channels row := by
  induction channels generalizing row with
  | nil => simp
  | cons ch chs ih =>
    cases row with
    | nil => simp
    | cons x xs => simp [preprocessValue, ih]

theorem preprocessValue_log_example :
    preprocessValue ⟨4, 1, 1024, 1⟩ 256 = 10 := by
  rw [preprocessValue, logStep, gainStep]
  norm_num

/-- C5 counterexample: the claim's concrete instance is wrong: a raw value
`256` in a channel with `PnE = "4,1"`, `PnR = 1024` maps to
`10 ^ (4*256/1024) * 1 = 10`, not `100`. -/
theorem C5_log_decode_counterexample :
    preprocessValue ⟨4, 1, 1024, 1⟩ 256 ≠ 100 := by
  rw [preprocessValue_log_example]
  norm_num

/-- C5 (amended): `as_array(preprocess=True)` scales the time column by the
timestep, then applies the log correction pass and then the gain pass as the
spec words them (the source's per-channel interleaving computes the same),
and the concrete instance `PnE="4,1"`, `PnR=1024`, `raw=256` maps to `10`. -/
theorem C5_as_array_preprocessing (channels : List ChannelScaling)
    (timeIndex : Option Nat) (timestep : Option ℝ) (row : List ℝ) :
    asArrayRow channels timeIndex timestep row
      = asArrayRowSpec channels timeIndex timestep row
    ∧ preprocessValue ⟨4, 1, 1024, 1⟩ 256 = 10 := by
  constructor
  · rw [asArrayRow, asArrayRowSpec, zipWith_gain_log]
  · exact preprocessValue_log_example

/-!
TEXT keyword/value decoding (`FlowData.__parse_pairs`, `flowdata.py`
lines 563-586).  The regex `(?<=[^d])d(?!d)` splits on a delimiter
occurrence that has a preceding character different from the delimiter and
is not followed by the delimiter.  The `|`, `\`, `*` branch of the source
only escapes the delimiter for regex syntax; the delimiter character used
here is taken verbatim (the FlowIO writer always uses `/`).
-/

/-- Split the body on regex matches of `(?<=[^d])d(?!d)`.  `prev` carries
the previously consumed character (`none` at the start of the string, where
the lookbehind fails). -/
def regexSplitGo (d : Char) (prev : Option Char) : List Char → List (List Char)
  | [] => [[]]
  | c :: rest =>
    if c = d ∧ prev ≠ none ∧ prev ≠ some d ∧ rest.head? ≠ some d then
      [] :: regexSplitGo d (some c) rest
    else
      match regexSplitGo d (some c) rest with
      | [] => [[c]]
      | t :: ts => (c :: t) :: ts

/-- `re.split` of the source's lookaround pattern over the whole body. -/
def regexSplit (d : Char) (s : List Char) : List (List Char) :=
  regexSplitGo d none s

/-- `l[::2]` (Python extended slice with step 2). -/
def everyOther {α : Type} : List α → List α
  | [] => []
  | [a] => [a]
  | a :: _ :: rest => a :: everyOther rest

/-- `x.replace(delimiter + delimiter, delimiter)`: contract doubled
delimiters to a single one, scanning left to right. -/
def contractDoubled (d : Char) : List Char → List Char
  | [] => []
  | [c] => [c]
  | c1 :: c2 :: rest =>
    if c1 = d ∧ c2 = d then c1 :: contractDoubled d rest
    else c1 :: contractDoubled d (c2 :: rest)

/-- The pairing step of `__parse_pairs`:
`zip(tmp[::2] lowered and contracted, tmp[1::2] contracted)`. -/
def zipPairs (d : Char) (tokens : List (List Char)) :
    List (List Char × List Char) :=
  List.zip
    ((everyOther tokens).map (fun k => contractDoubled d (k.map Char.toLower)))
    ((everyOther (tokens.drop 1)).map (fun v => contractDoubled d v))

/-- `FlowData.__parse_pairs`: the first character is the delimiter; strip
the first and last characters, remove every `$`, split on the lookaround
regex and pair consecutive tokens.  (The source would raise `IndexError` on
an empty input; no caller passes one, and the empty case here returns no
pairs.) -/
def parsePairs (text : List Char) : List (List Char × List Char) :=
  match text with
  | [] => []
  | d :: rest => zipPairs d (regexSplit d ((rest.dropLast).filter (fun c => c ≠ '$')))

theorem everyOther_length {α : Type} : ∀ l : List α,
    (everyOther l).length = (l.length + 1) / 2
  | [] => by simp [everyOther]
  | [a] => by simp [everyOther]
  | _ :: _ :: rest => by
    rw [everyOther]
    simp only [List.length_cons]
    rw [everyOther_length rest]
    omega

/-- C8 counterexample: the TEXT body `/a/1/b/` splits into the odd token
list `a`, `1`, `b`, yet `__parse_pairs` returns `{"a": "1"}` without
raising any error — the unpaired trailing key is silently dropped. -/
theorem C8_odd_tokens_counterexample :
    regexSplit '/' ['a', '/', '1', '/', 'b'] = [['a'], ['1'], ['b']]
    ∧ parsePairs ['/', 'a', '/', '1', '/', 'b', '/'] = [(['a'], ['1'])] := by
  decide

/-- C8 (amended): a delimiter-split token list of odd length does not raise
an error; the pairing keeps `⌊n/2⌋` pairs and silently ignores the final
unpaired token. -/
theorem C8_odd_tokens_dropped (d : Char) (tokens : List (List Char)) :
    (zipPairs d tokens).length = tokens.length / 2 := by
  rw [zipPairs, List.length_zip, List.length_map, List.length_map,
    everyOther_length, everyOther_length, List.length_drop]
  omega

/-!
Channel role classification (`FlowData.__init__`, `flowdata.py`
lines 255-282).
-/

/-- The role assigned to a channel by the classification chain. -/
inductive ChannelRole
  | fluoro
  | scatter
  | time
  | unclassified
  deriving DecidableEq

/-- Python `str.lower()` on a channel name, rendered over the character
list (ASCII case folding, as `Char.toLower` performs). -/
def pyLower (s : String) : List Char :=
  s.data.map Char.toLower

/-- The classification chain of `FlowData.__init__` for one channel: null
channels are skipped; a lowercased name whose first four characters are not
among `fsc-`, `ssc-`, `time` is fluorescence; `fsc-`/`ssc-` starts are
scatter; a name that lowercases to exactly `time` is the time channel and
its `PnG` is forced to `1.0`; any other case (e.g. a name that merely
starts with `time`) falls through the `elif` chain unclassified, `PnG`
untouched.  Returns `(role, PnG)`. -/
def classifyChannel (nullChannels : List String) (pnnLabel : String) (png : ℝ) :
    ChannelRole × ℝ :=
  if pnnLabel ∈ nullChannels then (.unclassified, png)
  else if (pyLower pnnLabel).take 4 ∉ ["fsc-".data, "ssc-".data, "time".data] then
    (.fluoro, png)
  else if (pyLower pnnLabel).take 4 ∈ ["fsc-".data, "ssc-".data] then
    (.scatter, png)
  else if pyLower pnnLabel = "time".data then (.time, 1)
  else (.unclassified, png)

/-- C9 counterexample: the channel name `Time1` lowercases to `time1`,
which begins with `time`, yet it is not classified as the time channel and
its `PnG` (here `5.0`) is left untouched. -/
theorem C9_time_name_counterexample :
    classifyChannel [] "Time1" 5 = (.unclassified, 5) := by
  rw [classifyChannel, if_neg (by decide), if_neg (by decide),
    if_neg (by decide), if_neg (by decide)]

/-- C9 (amended): a channel is classified as the time channel with `PnG`
forced to `1.0` exactly when it is not a null channel and its lowercased
`PnN` equals `time`; a non-null channel whose lowercased name merely begins
with `time` without being `time` is left unclassified with `PnG` unchanged. -/
theorem C9_time_channel_exact_match (nullChannels : List String)
    (label : String) (png : ℝ) :
    (classifyChannel nullChannels label png = (.time, 1)
      ↔ (label ∉ nullChannels ∧ pyLower label = "time".data)) ∧
    (label ∉ nullChannels → (pyLower label).take 4 = "time".data →
      pyLower label ≠ "time".data →
      classifyChannel nullChannels label png = (.unclassified, png)) := by
  constructor
  · constructor
    · intro h
      rw [classifyChannel] at h
      split_ifs at h with h1 h2 h3 h4
      all_goals first
        | exact ⟨h1, h4⟩
        | exact absurd h (by simp)
    · rintro ⟨h1, h2⟩
      have ht : (pyLower label).take 4 = "time".data := by
        rw [h2]
        decide
      have hmem : (pyLower label).take 4 ∈ ["fsc-".data, "ssc-".data, "time".data] := by
        rw [ht]; decide
      have hnmem2 : ¬((pyLower label).take 4 ∈ ["fsc-".data, "ssc-".data]) := by
        rw [ht]; decide
      rw [classifyChannel, if_neg h1, if_neg (fun hc => hc hmem),
        if_neg hnmem2, if_pos h2]
  · intro h1 h2 h3
    have hmem : (pyLower label).take 4 ∈ ["fsc-".data, "ssc-".data, "time".data] := by
      rw [h2]; decide
    have hnmem2 : ¬((pyLower label).take 4 ∈ ["fsc-".data, "ssc-".data]) := by
      rw [h2]; decide
    rw [classifyChannel, if_neg h1, if_neg (fun hc => hc hmem),
      if_neg hnmem2, if_neg h3]

/-- C9 witness: a channel named `time` with file `PnG = 2.0` is classified
as the time channel with `PnG` forced to `1.0`. -/
theorem C9_time_channel_exact_match_witness :
    classifyChannel [] "time" 2 = (.time, 1) :=
  (C9_time_channel_exact_match [] "time" 2).1.mpr ⟨by decide, by decide⟩

/-!
Multiple data sets (`read_multiple_data_sets`, `utils.py` lines 45-65).
The file is abstracted by `nextdataAt : Nat → Option Int`, giving for each
base byte offset the `$nextdata` value of the data set parsed there, or
`none` when the `FlowData` constructor raises (corrupt bytes or, in
particular, any read past the end of the file).
-/

/-- Outcome of the `while True` loop of `read_multiple_data_sets`, with an
explicit fuel so the embedding is total; `fuelExhausted` marks a run longer
than the given fuel. -/
inductive MultiReadResult
  | ok (offsets : List Nat)
  | parseFailure (offsets : List Nat)
  | negativeOffset
  | fuelExhausted
  deriving DecidableEq

/-- The loop body of `read_multiple_data_sets`: parse a data set at the
cumulative offset, stop on `nextdata == 0`, raise `MultipleDataSetsError`
on a negative value, otherwise add the positive `nextdata` to the offset
and continue. -/
def readMultipleDataSetsLoop (nextdataAt : Nat → Option Int) :
    Nat → Nat → List Nat → MultiReadResult
  | 0, _, _ => .fuelExhausted
  | fuel + 1, offset, acc =>
    match nextdataAt offset with
    | none => .parseFailure acc
    | some nd =>
      if nd = 0 then .ok (acc ++ [offset])
      else if nd < 0 then .negativeOffset
      else readMultipleDataSetsLoop nextdataAt fuel (offset + nd.toNat) (acc ++ [offset])

/-- `read_multiple_data_sets` run with enough fuel to cover every reachable
offset of a file of `fileSize` bytes. -/
def readMultipleDataSets (nextdataAt : Nat → Option Int) (fileSize : Nat) :
    MultiReadResult :=
  readMultipleDataSetsLoop nextdataAt (fileSize + 2) 0 []

/-- C10: `read_multiple_data_sets` terminates on every finite file: each
iteration returns, raises, or strictly increases the cumulative offset, so
the offset eventually exceeds the file size, where parsing fails and ends
the loop — the fuelled loop never exhausts its fuel. -/
theorem C10_read_multiple_data_sets_terminates
    (nextdataAt : Nat → Option Int) (fileSize : Nat)
    (heof : ∀ o, fileSize < o → nextdataAt o = none) :
    readMultipleDataSets nextdataAt fileSize ≠ .fuelExhausted := by
  have key : ∀ fuel offset acc, fileSize + 1 - offset < fuel →
      readMultipleDataSetsLoop nextdataAt fuel offset acc ≠ .fuelExhausted := by
    intro fuel
    induction fuel with
    | zero => intro offset acc h; omega
    | succ f ih =>
      intro offset acc h
      rw [readMultipleDataSetsLoop]
      cases hnd : nextdataAt offset with
      | none => simp
      | some nd =>
        simp only []
        split_ifs with h0 hneg
        · simp
        · simp
        · apply ih
          have hoff : offset ≤ fileSize := by
            by_contra hc
            push_neg at hc
            rw [heof offset hc] at hnd
            exact Option.noConfusion hnd
          omega
  exact key (fileSize + 2) 0 [] (by omega)

/-- A two-data-set file image for the C10 witness: the data set at offset 0
points 50 bytes ahead, the one at offset 50 is the last, and nothing parses
beyond byte 100. -/
def twoDataSetFile (o : Nat) : Option Int :=
  if o = 0 then some 50
  else if o = 50 then some 0
  else none

/-- C10 witness: reading the two-data-set file terminates (and in fact
returns both data sets). -/
theorem C10_read_multiple_data_sets_terminates_witness :
    readMultipleDataSets twoDataSetFile 100 ≠ .fuelExhausted ∧
    readMultipleDataSets twoDataSetFile 100 = .ok [0, 50] :=
  ⟨C10_read_multiple_data_sets_terminates twoDataSetFile 100
    (fun o ho => by
      rw [twoDataSetFile, if_neg (by omega), if_neg (by omega)]),
   by decide⟩

/-!
The FCS 3.1 writer (`create_fcs.py`).  Keys and values are `List Char`;
the ordered dictionaries of the source are ordered pair lists.
-/

/-- `FCS_STANDARD_REQUIRED_KEYWORDS` from `fcs_keywords.py`. -/
def fcsStandardRequiredKeywords : List (List Char) :=
  ["beginanalysis".data, "begindata".data, "beginstext".data, "byteord".data,
   "datatype".data, "endanalysis".data, "enddata".data, "endstext".data,
   "mode".data, "nextdata".data, "par".data, "tot".data]

/-- `FCS_STANDARD_OPTIONAL_KEYWORDS` from `fcs_keywords.py`. -/
def fcsStandardOptionalKeywords : List (List Char) :=
  ["abrt".data, "btim".data, "cells".data, "com".data, "csmode".data,
   "csvbits".data, "cyt".data, "cytsn".data, "date".data, "etim".data,
   "exp".data, "fil".data, "gate".data, "inst".data, "last_modified".data,
   "last_modifier".data, "lost".data, "op".data, "originality".data,
   "plateid".data, "platename".data, "proj".data, "smno".data,
   "spillover".data, "src".data, "sys".data, "timestep".data, "tr".data,
   "vol".data, "wellid".data]

/-- The regex `^(p)(\d+)([begrns])$` of `_build_text` on a lowercased key:
`p`, one or more digits, then one of `b e g r n s`. -/
def isPnParamKey (k : List Char) : Bool :=
  match k with
  | 'p' :: rest =>
    decide (2 ≤ rest.length) && rest.dropLast.all Char.isDigit &&
      ['b', 'e', 'g', 'r', 'n', 's'].contains (rest.getLastD ' ')
  | _ => false

/-- The regex `^p\d+([dfloptv]|calibration)$` of `_build_text`: since none
of the alternatives begins with a digit, the greedy `\d+` must consume the
whole digit run. -/
def isPnOptionalKey (k : List Char) : Bool :=
  match k with
  | 'p' :: rest =>
    decide (1 ≤ (rest.takeWhile Char.isDigit).length) &&
      (rest.dropWhile Char.isDigit) ∈
        [['d'], ['f'], ['l'], ['o'], ['p'], ['t'], ['v'], "calibration".data]
  | _ => false

/-- `value.replace(text_delimiter, text_delimiter * 2)`. -/
def escapeDelim (d : Char) (v : List Char) : List Char :=
  v.flatMap (fun c => if c = d then [d, d] else [c])

/-- Python `str.upper()` over the characters. -/
def pyUpper (k : List Char) : List Char :=
  k.map Char.toUpper

/-- One `'$%s%s%s%s' % (key, delim, value-escaped, delim)` entry of
`_build_text`. -/
def stdEntry (d : Char) (key value : List Char) : List Char :=
  '$' :: (key ++ [d] ++ escapeDelim d value ++ [d])

/-- One `'%s%s%s%s'` entry (no `$`) for a non-standard keyword. -/
def nonStdEntry (d : Char) (key value : List Char) : List Char :=
  key ++ [d] ++ escapeDelim d value ++ [d]

/-- Classification of a metadata key in `_build_text`: written now with a
`$` (standard optional or optional per-channel key). -/
def metaStdOptional (key : List Char) : Bool :=
  !(fcsStandardRequiredKeywords.contains key) && !(isPnParamKey key) &&
    (fcsStandardOptionalKeywords.contains key || isPnOptionalKey key)

/-- Classification of a metadata key in `_build_text`: saved for the
trailing non-standard block. -/
def metaNonStd (key : List Char) : Bool :=
  !(fcsStandardRequiredKeywords.contains key) && !(isPnParamKey key) &&
    !(fcsStandardOptionalKeywords.contains key) && !(isPnOptionalKey key)

/-- `_build_text(required_dict, text_delimiter, metadata_dict)`: the leading
delimiter, the required entries, then the standard-optional metadata
entries, then the non-standard metadata entries. -/
def buildText (required : List (List Char × List Char)) (d : Char)
    (metadata : List (List Char × List Char)) : List Char :=
  [d]
  ++ required.flatMap (fun kv => stdEntry d kv.1 kv.2)
  ++ (metadata.filter (fun kv => metaStdOptional kv.1)).flatMap
      (fun kv => stdEntry d (pyUpper kv.1) kv.2)
  ++ (metadata.filter (fun kv => metaNonStd kv.1)).flatMap
      (fun kv => nonStdEntry d (pyUpper kv.1) kv.2)

/-- The key preprocessing of `create_fcs` (lines 180-189): strip all leading
`$` characters (regex `^\$*(.*)`) and lowercase. -/
def procMetadataKey (k : List Char) : List Char :=
  (k.dropWhile (fun c => c = '$')).map Char.toLower

/-- `proc_metadata_dict`: every key stripped and lowercased (the keys are
assumed distinct after normalisation, as a Python dict would collapse
duplicates). -/
def procMetadata (metadata : List (List Char × List Char)) :
    List (List Char × List Char) :=
  metadata.map (fun kv => (procMetadataKey kv.1, kv.2))

/-- Dictionary lookup over the ordered pair list. -/
def lookupMeta (metadata : List (List Char × List Char)) (key : List Char) :
    Option (List Char) :=
  (metadata.find? (fun kv => kv.1 == key)).map (fun kv => kv.2)

/-- `int(digit string)` without sign or point. -/
def digitsToNat (ds : List Char) : Nat :=
  ds.foldl (fun acc c => acc * 10 + (c.toNat - '0'.toNat)) 0

/-- Python `float(x)` restricted to the plain unsigned decimal literals
`create_fcs` meets in `PnE` values (digits with at most one point);
anything else is `none` (a `ValueError` in the source). -/
def parseDecimal (s : List Char) : Option ℚ :=
  match s.splitOn '.' with
  | [ip] =>
    if ip ≠ [] ∧ ip.all Char.isDigit then some (digitsToNat ip) else none
  | [ip, fp] =>
    if (ip ≠ [] ∨ fp ≠ []) ∧ ip.all Char.isDigit ∧ fp.all Char.isDigit then
      some ((digitsToNat ip : ℚ) + (digitsToNat fp : ℚ) / 10 ^ fp.length)
    else none
  | _ => none

/-- The PnE check of `create_fcs` (lines 208-219): channel `chanNum` draws a
`PnEWarning` when `p{chanNum}e` is present and parses to `(decades, log0)`
with `decades != 0 or log0 != 0`. -/
def pneWarnsForChannel (metadata : List (List Char × List Char))
    (chanNum : Nat) : Bool :=
  match lookupMeta metadata ('p' :: (natStr chanNum ++ ['e'])) with
  | none => false
  | some v =>
    match (v.splitOn ',').map parseDecimal with
    | [some decades, some log0] => decide (decades ≠ 0 ∨ log0 ≠ 0)
    | _ => false

/-- The channels whose PnE draws a `PnEWarning` during the `create_fcs`
channel loop. -/
def pneWarningChannels (metadata : List (List Char × List Char))
    (nChannels : Nat) : List Nat :=
  (List.range nChannels).filterMap
    (fun i => if pneWarnsForChannel metadata (i + 1) then some (i + 1) else none)

/-- The optional `P{n}S` entry: present only when an optional channel name
is given and non-empty (`opt_channel_names[i] not in [None, '']`; a Python
`None` is modelled as the empty name). -/
def pnsEntry (chanNum : Nat) : Option (List (List Char)) → Nat →
    List (List Char × List Char)
  | some ons, i =>
    if ons.getD i [] ≠ [] then
      [('P' :: (natStr chanNum ++ ['S']), ons.getD i [])]
    else []
  | none, _ => []

/-- The per-channel entries of the `text` ordered dictionary (`create_fcs`
lines 200-249): for channel `n`, `PnB = "32"`, `PnE = "0,0"`, `PnG` from
the metadata or `"1.0"`, `PnR` from the metadata or `"262144"`, `PnN` the
channel name, then the optional `PnS`. -/
def channelEntries (metadata : List (List Char × List Char))
    (channelNames : List (List Char)) (optNames : Option (List (List Char))) :
    List (List Char × List Char) :=
  (List.range channelNames.length).flatMap (fun i =>
    let chanNum := i + 1
    let pngValue :=
      (lookupMeta metadata ('p' :: (natStr chanNum ++ ['g']))).getD "1.0".data
    let pnrValue :=
      (lookupMeta metadata ('p' :: (natStr chanNum ++ ['r']))).getD "262144".data
    [('P' :: (natStr chanNum ++ ['B']), "32".data),
     ('P' :: (natStr chanNum ++ ['E']), "0,0".data),
     ('P' :: (natStr chanNum ++ ['G']), pngValue),
     ('P' :: (natStr chanNum ++ ['R']), pnrValue),
     ('P' :: (natStr chanNum ++ ['N']), channelNames.getD i [])]
    ++ pnsEntry chanNum optNames i)

/-- The `text` ordered dictionary of `create_fcs` (lines 160-249), with the
given `BEGINDATA`/`ENDDATA` values (empty placeholders on the first pass). -/
def requiredTextPairs (nChannels nPoints : Nat) (beginData endData : List Char)
    (metadata : List (List Char × List Char))
    (channelNames : List (List Char)) (optNames : Option (List (List Char))) :
    List (List Char × List Char) :=
  [("BEGINANALYSIS".data, "0".data),
   ("BEGINDATA".data, beginData),
   ("BEGINSTEXT".data, "0".data),
   ("BYTEORD".data, "1,2,3,4".data),
   ("DATATYPE".data, "F".data),
   ("ENDANALYSIS".data, "0".data),
   ("ENDDATA".data, endData),
   ("ENDSTEXT".data, "0".data),
   ("MODE".data, "L".data),
   ("NEXTDATA".data, "0".data),
   ("PAR".data, natStr nChannels),
   ("TOT".data, natStr (nPoints / nChannels))]
  ++ channelEntries metadata channelNames optNames

/-- The length check of `opt_channel_names` against `channel_names`. -/
def optLenMismatch (optChannelNames : Option (List (List Char)))
    (nChannels : Nat) : Bool :=
  match optChannelNames with
  | some ons => ons.length != nChannels
  | none => false

/-- The `datatype` validation: a user-supplied `datatype` other than `F` is
rejected. -/
def badDatatype (metadata : List (List Char × List Char)) : Bool :=
  match lookupMeta metadata "datatype".data with
  | some v => v != "F".data
  | none => false

/-- Errors of `create_fcs`: the `ValueError`s of the input validation, the
`NotImplementedError` for a non-`F` datatype, and the final
`Exception("REPORT BUG: error calculating text offset")`. -/
inductive CreateFcsError
  | valueError (msg : String)
  | notImplemented
  | reportBug
  deriving DecidableEq

/-- What `create_fcs` determines before writing bytes: the final
`BEGINDATA`/`ENDDATA` offsets, the `text` dictionary and rendered TEXT
bytes, and the channels that drew a `PnEWarning`. -/
structure CreateFcsOutput where
  beginData : Nat
  endData : Nat
  textPairs : List (List Char × List Char)
  textBytes : List Char
  pneWarnings : List Nat
  deriving DecidableEq

instance {ε α : Type} [DecidableEq ε] [DecidableEq α] :
    DecidableEq (Except ε α) := fun a b =>
  match a, b with
  | .error e1, .error e2 =>
    if h : e1 = e2 then .isTrue (by rw [h]) else .isFalse (by simp [h])
  | .ok v1, .ok v2 =>
    if h : v1 = v2 then .isTrue (by rw [h]) else .isFalse (by simp [h])
  | .error _, .ok _ => .isFalse (by simp)
  | .ok _, .error _ => .isFalse (by simp)

/-- `create_fcs(file_handle, event_data, channel_names, opt_channel_names,
metadata_dict)` up to (and including) the TEXT re-render sanity check;
`eventCount` is `len(event_data)` (the event values themselves only enter
the DATA payload, not the offsets). -/
def create_fcs (eventCount : Nat) (channelNames : List (List Char))
    (optChannelNames : Option (List (List Char)))
    (metadataDict : Option (List (List Char × List Char))) :
    Except CreateFcsError CreateFcsOutput :=
  let nChannels := channelNames.length
  if optLenMismatch optChannelNames nChannels then
    .error (.valueError "Number of PnN labels does not match the number of PnS channels")
  else if eventCount = 0 then
    .error (.valueError "event_data array provided was empty")
  else if eventCount % nChannels ≠ 0 then
    .error (.valueError "Number of data points is not a multiple of the number of channels")
  else
    let dataSize := 4 * eventCount
    let metadata := procMetadata (metadataDict.getD [])
    if badDatatype metadata then
      .error .notImplemented
    else
      let textString0 :=
        buildText (requiredTextPairs nChannels eventCount [] []
          metadata channelNames optChannelNames) '/' metadata
      let initialBeginDataOffset := 256 + textString0.length
      let initialEndDataOffset := initialBeginDataOffset + dataSize - 1
      let beginDataValueLength := (natStr initialBeginDataOffset).length
      let endDataValueLength := (natStr initialEndDataOffset).length
      let beginDataDiff := 10 ^ beginDataValueLength - initialBeginDataOffset
      let endDataDiff := 10 ^ endDataValueLength - initialEndDataOffset
      let totalDataValuesLength := beginDataValueLength + endDataValueLength
      let beginDataOffsetCorrection :=
        (if beginDataDiff ≤ totalDataValuesLength ∧ beginDataDiff ≠ 0 then 1 else 0)
        + (if endDataDiff ≤ totalDataValuesLength ∧ endDataDiff ≠ 0 then 1 else 0)
      let finalBeginDataOffset :=
        initialBeginDataOffset + beginDataValueLength + endDataValueLength
          + beginDataOffsetCorrection
      let finalEndDataOffset := finalBeginDataOffset + dataSize - 1
      let textPairsFinal :=
        requiredTextPairs nChannels eventCount
          (natStr finalBeginDataOffset) (natStr finalEndDataOffset)
          metadata channelNames optChannelNames
      let textString1 := buildText textPairsFinal '/' metadata
      if 256 + textString1.length ≠ finalBeginDataOffset then
        .error .reportBug
      else
        .ok ⟨finalBeginDataOffset, finalEndDataOffset, textPairsFinal,
          textString1, pneWarningChannels metadata nChannels⟩

theorem last_of_append_singleton {α : Type} (l1 l2 : List α) (a b : α)
    (h : l1 ++ [a] = l2 ++ [b]) : a = b := by
  have hlast := congrArg List.getLast? h
  simpa using hlast

set_option maxRecDepth 16384 in
/-- Validation of the embedding against the writer tests shipped with the
source (`test_fcs_write.py::test_create_fcs_data_offsets`): 135 events on
one channel give data offsets 457-996; 136 give 458-1001; adding a `$COM`
value of 535 (resp. 536) `x` characters gives 999-1538 (resp. 1001-1540). -/
theorem create_fcs_matches_source_tests :
    (create_fcs 135 ["FSC-A".data] none none).toOption.map
      (fun o => (o.beginData, o.endData)) = some (457, 996)
    ∧ (create_fcs 136 ["FSC-A".data] none none).toOption.map
      (fun o => (o.beginData, o.endData)) = some (458, 1001)
    ∧ (create_fcs 135 ["FSC-A".data] none
        (some [("COM".data, List.replicate 535 'x')])).toOption.map
      (fun o => (o.beginData, o.endData)) = some (999, 1538)
    ∧ (create_fcs 135 ["FSC-A".data] none
        (some [("COM".data, List.replicate 536 'x')])).toOption.map
      (fun o => (o.beginData, o.endData)) = some (1001, 1540) := by
  decide

set_option maxRecDepth 16384 in
/-- C1: the digit-length fixed point of `create_fcs` is NOT always reached:
with one channel named `A`, 2250 events and a 539-character `$COM` value,
the first render is 737 bytes, so `initial_begin = 993` (3 digits,
`begin_data_diff = 7`) and `initial_end = 9992` (4 digits,
`end_data_diff = 8 > 7 = total`); the correction adds only 1, yet both
values cross a digit boundary (`BEGINDATA = 1001`, `ENDDATA = 10000`), the
re-rendered TEXT is 746 bytes and `256 + 746 = 1002 != 1001`, so the
`REPORT BUG` branch is reached on an input that passes every validation. -/
theorem C1_report_bug_reachable :
    create_fcs 2250 ["A".data] none
      (some [("com".data, List.replicate 539 'x')]) = .error .reportBug := by
  decide

set_option maxRecDepth 16384 in
/-- C6: `create_fcs` rejects an empty `event_data` list with a
`ValueError`, although the shipped test
`test_fcs_write.py::test_create_and_read_empty_fcs` (and the spec) expect
an empty event list to be accepted. -/
theorem C6_empty_events_rejected :
    create_fcs 0 ["FSC-A".data] none none
      = .error (.valueError "event_data array provided was empty") := by
  decide

set_option maxRecDepth 16384 in
/-- C7 counterexample: for nine channels and metadata `{"p9e": "4,0"}`,
`create_fcs` emits the `PnEWarning` for channel 9, but the written `P9E`
value is `0,0`, not `4,1`. -/
theorem C7_pne_written_value_counterexample :
    (create_fcs 9 (List.replicate 9 "A".data) none
        (some [("p9e".data, "4,0".data)])).toOption.map
      (fun o => (lookupMeta o.textPairs "P9E".data, o.pneWarnings))
      = some (some "0,0".data, [9])
    ∧ ("0,0".data : List Char) ≠ "4,1".data := by
  decide

/-- C7 (amended): a non-zero `PnE` for an existing channel draws a
`PnEWarning`, and the written `PnE` value is always `0,0` (float data
forces `0,0`; the source never writes the user value back): every entry of
the channel dictionary whose key has the shape `P...E` carries the value
`0,0`, and every warning-drawing channel index lands in the emitted warning
list. -/
theorem C7_pne_rewritten_to_zero :
    (∀ (metadata : List (List Char × List Char)) (names : List (List Char))
        (opt : Option (List (List Char))) (kv : List Char × List Char),
      kv ∈ channelEntries metadata names opt →
      ∀ pre : List Char, kv.1 = 'P' :: (pre ++ ['E']) → kv.2 = "0,0".data) ∧
    (∀ (metadata : List (List Char × List Char)) (n i : Nat),
      i < n → pneWarnsForChannel metadata (i + 1) = true →
      (i + 1) ∈ pneWarningChannels metadata n) := by
  constructor
  · intro metadata names opt kv hkv pre hpre
    simp only [channelEntries, List.mem_flatMap] at hkv
    obtain ⟨i, hi, hkv⟩ := hkv
    have hlast : ∀ c : Char, c ≠ 'E' →
        ¬('P' :: (natStr (i + 1) ++ [c]) = kv.1) := by
      intro c hc hcontra
      rw [hpre] at hcontra
      rw [List.cons.injEq] at hcontra
      exact hc (last_of_append_singleton _ _ _ _ hcontra.2)
    rw [List.mem_append] at hkv
    rcases hkv with hkv | hkv
    · simp only [List.mem_cons, List.not_mem_nil, or_false] at hkv
      rcases hkv with h | h | h | h | h
      all_goals
        first
        | (exact absurd (congrArg Prod.fst h).symm (hlast _ (by decide)))
        | (rw [h])
    · have hs : kv.1 = 'P' :: (natStr (i + 1) ++ ['S']) := by
        cases opt with
        | none => simp [pnsEntry] at hkv
        | some ons =>
          rw [pnsEntry] at hkv
          split_ifs at hkv with hc
          · simp only [List.mem_singleton] at hkv
            rw [hkv]
          · simp at hkv
      exact absurd hs.symm (hlast _ (by decide))
  · intro metadata n i hi hwarn
    rw [pneWarningChannels, List.mem_filterMap]
    exact ⟨i, List.mem_range.mpr hi, by rw [if_pos hwarn]⟩

/-- C7 witness: with metadata `{"p9e": "4,0"}` and nine channels, channel 9
draws the `PnEWarning`. -/
theorem C7_pne_rewritten_to_zero_witness :
    9 ∈ pneWarningChannels [("p9e".data, "4,0".data)] 9 :=
  C7_pne_rewritten_to_zero.2 [("p9e".data, "4,0".data)] 9 8 (by decide)
    (by decide)

end FlowIO
